import Mathlib

/-!
Shallow embedding of the gora repository's variable registry and resolution
engine (src/variables/variables.go) and its compile/scan orchestration
(src/gora.go), together with theorems settling the frozen claims about them.

External collaborators (the yara compiler/scanner engine, OS file and process
introspection, the rule-source parser whose source file is not under src/) are
modelled as explicit oracle parameters; machine integers are modelled as Nat
and Int; Go interface values of the variable-value kind are modelled by
`Option Value` where `none` stands for a nil interface value.
-/

/-- Go `type VariableType byte`: an external yara variable identifier, an
integer ordinal used to index the registry tables. -/
structure VariableType where
  val : Nat
  deriving DecidableEq, Repr

/-- The enumerated identifiers of src/variables/variables.go (iota constants,
0 is the reserved blank). -/
def VarOs : VariableType := ⟨1⟩

def VarOsLinux : VariableType := ⟨2⟩

def VarOsWindows : VariableType := ⟨3⟩

def VarOsDarwin : VariableType := ⟨4⟩

def VarTimeNow : VariableType := ⟨5⟩

def VarFilePath : VariableType := ⟨6⟩

def VarFileName : VariableType := ⟨7⟩

def VarFileExtension : VariableType := ⟨8⟩

def VarFileReadonly : VariableType := ⟨9⟩

def VarFileHidden : VariableType := ⟨10⟩

def VarFileSystem : VariableType := ⟨11⟩

def VarFileCompressed : VariableType := ⟨12⟩

def VarFileEncrypted : VariableType := ⟨13⟩

def VarFileModifiedTime : VariableType := ⟨14⟩

def VarFileAccessedTime : VariableType := ⟨15⟩

def VarFileChangedTime : VariableType := ⟨16⟩

def VarFileBirthTime : VariableType := ⟨17⟩

def VarProcessId : VariableType := ⟨18⟩

def VarProcessParentId : VariableType := ⟨19⟩

def VarProcessUserName : VariableType := ⟨20⟩

def VarProcessUserSid : VariableType := ⟨21⟩

def VarProcessSessionId : VariableType := ⟨22⟩

def VarProcessName : VariableType := ⟨23⟩

def VarProcessPath : VariableType := ⟨24⟩

def VarProcessCommandLine : VariableType := ⟨25⟩

/-- Go `typeEnd`: one past the last registered identifier. -/
def typeEnd : Nat := 26

/-- Go `MetaType` bit constants. -/
def MetaBool : Nat := 1

def MetaInt : Nat := 2

def MetaFloat : Nat := 4

def MetaString : Nat := 8

def MetaFile : Nat := 16

def MetaProcess : Nat := 32

def MetaFileProcess : Nat := MetaFile ||| MetaProcess

/-- Go `varNames` array: canonical string name per identifier ordinal; index 0
holds the zero value "". -/
def varNames : Nat → String
  | 1 => "os"
  | 2 => "os_linux"
  | 3 => "os_windows"
  | 4 => "os_darwin"
  | 5 => "time_now"
  | 6 => "file_path"
  | 7 => "file_name"
  | 8 => "file_extension"
  | 9 => "file_readonly"
  | 10 => "file_hidden"
  | 11 => "file_system"
  | 12 => "file_compressed"
  | 13 => "file_encrypted"
  | 14 => "file_modified_time"
  | 15 => "file_accessed_time"
  | 16 => "file_changed_time"
  | 17 => "file_birth_time"
  | 18 => "process_id"
  | 19 => "process_parent_id"
  | 20 => "process_user_name"
  | 21 => "process_user_sid"
  | 22 => "process_session_id"
  | 23 => "process_name"
  | 24 => "process_path"
  | 25 => "process_command_line"
  | _ => ""

/-- Go `varMetas` array: metadata bitmask per identifier ordinal; index 0 holds
the zero value 0. -/
def varMetas : Nat → Nat
  | 1 => MetaFileProcess ||| MetaString
  | 2 => MetaFileProcess ||| MetaBool
  | 3 => MetaFileProcess ||| MetaBool
  | 4 => MetaFileProcess ||| MetaBool
  | 5 => MetaFileProcess ||| MetaInt
  | 6 => MetaFileProcess ||| MetaString
  | 7 => MetaFileProcess ||| MetaString
  | 8 => MetaFileProcess ||| MetaString
  | 9 => MetaFileProcess ||| MetaBool
  | 10 => MetaFileProcess ||| MetaBool
  | 11 => MetaFileProcess ||| MetaBool
  | 12 => MetaFileProcess ||| MetaBool
  | 13 => MetaFileProcess ||| MetaBool
  | 14 => MetaFileProcess ||| MetaInt
  | 15 => MetaFileProcess ||| MetaInt
  | 16 => MetaFileProcess ||| MetaInt
  | 17 => MetaFileProcess ||| MetaInt
  | 18 => MetaProcess ||| MetaInt
  | 19 => MetaProcess ||| MetaInt
  | 20 => MetaProcess ||| MetaString
  | 21 => MetaProcess ||| MetaString
  | 22 => MetaProcess ||| MetaInt
  | 23 => MetaProcess ||| MetaString
  | 24 => MetaProcess ||| MetaString
  | 25 => MetaProcess ||| MetaString
  | _ => 0

/-- Go `(VariableType).String`: name lookup guarded by the range check
`v < typeEnd`. -/
def VariableType.String (v : VariableType) : String :=
  if v.val < typeEnd then varNames v.val else ""

/-- Go `(VariableType).Meta`: metadata lookup guarded by the range check
`v < typeEnd`. -/
def VariableType.Meta (v : VariableType) : Nat :=
  if v.val < typeEnd then varMetas v.val else 0

/-- Go `variables.List`: `for v := range varNames[1:]` ranges over the INDICES
of the sliced array, so the function appends `VariableType(v)` for
`v = 0 .. len(varNames)-2`. -/
def goList : List VariableType :=
  (List.range (typeEnd - 1)).map (fun v => ⟨v⟩)

/-- The claim's catalogue of valid identifiers: 1 through the last registered
identifier, in ascending registry order, excluding the reserved none
sentinel 0. Stated from the claim's words, for comparison with goList. -/
def catalogIdentifiers : List VariableType :=
  (List.range (typeEnd - 1)).map (fun v => ⟨v + 1⟩)

/-- Go `Variables` struct: the ordered, deduplicated, filtered selector. -/
structure Variables where
  list : List VariableType
  deriving DecidableEq, Repr

/-- Loop of Go `(Variables).setVariables`: `acc` plays `vr.list`, and
membership in `acc` plays the `vmap` dedup set (an identifier is added to
both together, so they always hold the same elements). -/
def setVarsLoop (metaMask : Nat) : List VariableType → List VariableType → List VariableType
  | [], acc => acc
  | vid :: rest, acc =>
    if vid ∈ acc then setVarsLoop metaMask rest acc
    else if (vid.Meta &&& metaMask) != 0 then setVarsLoop metaMask rest (acc ++ [vid])
    else setVarsLoop metaMask rest acc

/-- Go `(Variables).setVariables`: replaces the selector list with the
deduplicated, mask-filtered input. -/
def setVariables (vars : List VariableType) (metaMask : Nat) : List VariableType :=
  setVarsLoop metaMask vars []

/-- Go `(Variables).InitFileVariables`: overwrites the receiver's list with
`setVariables(vars, MetaFile)`; modelled state-passing (the prior value of the
receiver's list is discarded by the source as well). -/
def InitFileVariables (vars : List VariableType) : Variables :=
  ⟨setVariables vars MetaFile⟩

/-- Go `(Variables).InitProcessVariables`: overwrites the receiver's list with
`setVariables(vars, MetaProcess)`. -/
def InitProcessVariables (vars : List VariableType) : Variables :=
  ⟨setVariables vars MetaProcess⟩

/-- Spec-side selector build, following the spec's words: deduplicate keeping
the first occurrence (dropping later duplicates), tracked by the `seen`
accumulator. -/
def dedupFirstAux (seen : List VariableType) : List VariableType → List VariableType
  | [] => []
  | v :: l => if v ∈ seen then dedupFirstAux seen l else v :: dedupFirstAux (v :: seen) l

/-- Spec-side deduplication keeping first occurrences. -/
def dedupFirst (l : List VariableType) : List VariableType :=
  dedupFirstAux [] l

theorem setVarsLoop_eq_dedup_filter (metaMask : Nat) :
    ∀ (vars acc seen : List VariableType),
      (∀ v ∈ acc, ((v.Meta &&& metaMask) != 0) = true) →
      (∀ v, ((v.Meta &&& metaMask) != 0) = true → (v ∈ acc ↔ v ∈ seen)) →
      setVarsLoop metaMask vars acc =
        acc ++ (dedupFirstAux seen vars).filter (fun v => (v.Meta &&& metaMask) != 0)
  | [], acc, seen, _, _ => by simp [setVarsLoop, dedupFirstAux]
  | vid :: rest, acc, seen, hacc, hiff => by
    by_cases hP : ((vid.Meta &&& metaMask) != 0) = true
    · by_cases hin : vid ∈ acc
      · have hseen : vid ∈ seen := (hiff vid hP).mp hin
        rw [setVarsLoop, if_pos hin, dedupFirstAux, if_pos hseen]
        exact setVarsLoop_eq_dedup_filter metaMask rest acc seen hacc hiff
      · have hseen : vid ∉ seen := fun h => hin ((hiff vid hP).mpr h)
        rw [setVarsLoop, if_neg hin, if_pos hP, dedupFirstAux, if_neg hseen]
        have hacc' : ∀ v ∈ acc ++ [vid], ((v.Meta &&& metaMask) != 0) = true := by
          intro v hv
          rcases List.mem_append.mp hv with h | h
          · exact hacc v h
          · simp at h; subst h; exact hP
        have hiff' : ∀ v, ((v.Meta &&& metaMask) != 0) = true →
            (v ∈ acc ++ [vid] ↔ v ∈ vid :: seen) := by
          intro v hv
          constructor
          · intro h
            rcases List.mem_append.mp h with h | h
            · exact List.mem_cons_of_mem _ ((hiff v hv).mp h)
            · simp at h; subst h; exact List.mem_cons_self _ _
          · intro h
            rcases List.mem_cons.mp h with h | h
            · subst h; exact List.mem_append.mpr (Or.inr (by simp))
            · exact List.mem_append.mpr (Or.inl ((hiff v hv).mpr h))
        rw [setVarsLoop_eq_dedup_filter metaMask rest (acc ++ [vid]) (vid :: seen) hacc' hiff']
        simp [List.filter, hP]
    · have hin : vid ∉ acc := fun h => hP (hacc vid h)
      rw [setVarsLoop, if_neg hin, if_neg hP]
      by_cases hseen : vid ∈ seen
      · rw [dedupFirstAux, if_pos hseen]
        exact setVarsLoop_eq_dedup_filter metaMask rest acc seen hacc hiff
      · rw [dedupFirstAux, if_neg hseen]
        have hiff' : ∀ v, ((v.Meta &&& metaMask) != 0) = true →
            (v ∈ acc ↔ v ∈ vid :: seen) := by
          intro v hv
          rw [hiff v hv]
          constructor
          · exact fun h => List.mem_cons_of_mem _ h
          · intro h
            rcases List.mem_cons.mp h with h | h
            · subst h; exact absurd hv hP
            · exact h
        rw [setVarsLoop_eq_dedup_filter metaMask rest acc (vid :: seen) hacc hiff']
        simp [List.filter, hP]

/-- C3: for every input list of candidates and every target mask, the selector
build yields exactly the candidates whose metadata intersects the mask, with
duplicates dropped keeping the first occurrence and survivors ordered by first
occurrence in the input; in particular, for candidates [X, X, Y] with X
process-only (process_id) and Y applicable to both (file_path), the
file-target build yields [Y] and the process-target build yields [X, Y]. -/
theorem setVariables_dedups_then_filters :
    (∀ (vars : List VariableType) (metaMask : Nat),
      setVariables vars metaMask =
        (dedupFirst vars).filter (fun v => (v.Meta &&& metaMask) != 0)) ∧
    (InitFileVariables [VarProcessId, VarProcessId, VarFilePath]).list = [VarFilePath] ∧
    (InitProcessVariables [VarProcessId, VarProcessId, VarFilePath]).list =
      [VarProcessId, VarFilePath] := by
  refine ⟨fun vars metaMask => ?_, by decide, by decide⟩
  have h := setVarsLoop_eq_dedup_filter metaMask vars [] []
    (by intro v hv; simp at hv) (by intro v _; simp)
  simpa [setVariables, dedupFirst] using h

/-- C1: evaluating `variables.List()` shows the bug: its Go loop ranges over
the indices of `varNames[1:]`, yielding VariableType values 0 through 24, so
the result contains the reserved none sentinel 0 and omits the last registered
identifier `process_command_line` (25), contradicting the function's own doc
comment ("the list of all available variables") and the claim's catalogue. -/
theorem goList_contains_sentinel_omits_last :
    goList = (List.range 25).map (fun v => (⟨v⟩ : VariableType)) ∧
    (⟨0⟩ : VariableType) ∈ goList ∧
    VarProcessCommandLine ∉ goList ∧
    VarProcessCommandLine ∈ catalogIdentifiers ∧
    goList ≠ catalogIdentifiers := by decide

/-- Go interface variable value: one of the four value kinds the acceptor
understands. Only float64(0) is ever constructed by this core (as a default
zero value), so float payloads are carried as the integer they were converted
from. -/
inductive Value where
  | str : String → Value
  | int : Int → Value
  | bool : Bool → Value
  | float : Int → Value
  deriving DecidableEq, Repr

/-- Result of a Go `(interface{}, error)` valuer call: (value, error), where a
`none` value is a nil interface. The error type is a parameter ε. -/
abbrev VarRes (ε : Type) := Option Value × Option ε

/-- A valuer call result that can also panic (a failed unchecked type
assertion): `none` is a panic, `some r` a normal return. -/
abbrev PVal (ε : Type) := Option (VarRes ε)

/-- Splits a character list on a separator, keeping empty segments, with a
reversed current-segment accumulator. -/
def splitOnAux (sep : Char) : List Char → List Char → List (List Char)
  | [], cur => [cur.reverse]
  | c :: cs, cur =>
    if c = sep then cur.reverse :: splitOnAux sep cs []
    else splitOnAux sep cs (c :: cur)

/-- Component processing of Go `path/filepath.Clean` (unix separators): empty
and "." components are dropped; ".." pops a non-".." stack entry, is dropped at
the root, and accumulates otherwise. The stack is kept reversed. -/
def cleanStack (rooted : Bool) : List (List Char) → List (List Char) → List (List Char)
  | [], stack => stack.reverse
  | comp :: rest, stack =>
    if comp = [] ∨ comp = ['.'] then cleanStack rooted rest stack
    else if comp = ['.', '.'] then
      match stack with
      | top :: stk =>
        if top = ['.', '.'] then cleanStack rooted rest (comp :: top :: stk)
        else cleanStack rooted rest stk
      | [] =>
        if rooted then cleanStack rooted rest []
        else cleanStack rooted rest [comp]
    else cleanStack rooted rest (comp :: stack)

/-- The cleaned character sequence of a non-empty path: the surviving
components joined with '/', with a leading '/' when rooted. -/
def cleanCore (cs : List Char) : List Char :=
  let rooted := cs.head? = some '/'
  let joined := List.intercalate ['/'] (cleanStack rooted (splitOnAux '/' cs []) [])
  if rooted then '/' :: joined else joined

/-- Go `path/filepath.Clean` for unix-style separators (the lexical
normalization the source applies to scan paths), modelled component-wise; an
empty path and an empty cleaning result give ".". -/
def clean (s : String) : String :=
  if s = "" then "."
  else if cleanCore s.toList = [] then "."
  else String.mk (cleanCore s.toList)

/-- Go `path/filepath.Base` (unix separators): empty path gives ".", trailing
separators are stripped, everything up to the final separator is dropped, and
an all-separator path gives "/". -/
def goBase (s : String) : String :=
  if s = "" then "."
  else
    let cs := (s.toList.reverse.dropWhile (fun c => c = '/')).reverse
    if cs = [] then "/"
    else String.mk (cs.reverse.takeWhile (fun c => c ≠ '/')).reverse

/-- Scan from the reversed path: stop at a separator, return the suffix from
the last dot. -/
def extRev : List Char → List Char → String
  | [], _ => ""
  | c :: cs, acc =>
    if c = '/' then ""
    else if c = '.' then String.mk ('.' :: acc)
    else extRev cs (c :: acc)

/-- Go `path/filepath.Ext` (unix separators): the suffix beginning at the final
dot in the final path element, empty if there is no dot. -/
def goExt (s : String) : String :=
  extRev s.toList.reverse []

/-- Go `strings.TrimPrefix(s, ".")` as used by the extension valuer. -/
def trimLeadingDot (s : String) : String :=
  match s.toList with
  | '.' :: rest => String.mk rest
  | _ => s

/-- Go `strings.HasPrefix(s, ".")` as used by the extension valuer. -/
def startsWithDot (s : String) : Bool :=
  s.toList.head? = some '.'

/-- Go `strings.Count(s, ".")`: for the one-character pattern this is the
number of '.' characters in s. -/
def countDots (s : String) : Nat :=
  s.toList.count '.'

/-- A broken-down local time, standing for Go time.Time where the source only
ever formats it with the 14-digit layout "20060102150405". -/
structure GoTime where
  year : Nat
  month : Nat
  day : Nat
  hour : Nat
  minute : Nat
  second : Nat
  deriving DecidableEq, Repr

/-- The integer that parsing the "20060102150405" rendering of a time yields. -/
def encodeTime (t : GoTime) : Int :=
  Int.ofNat (t.year * 10 ^ 10 + t.month * 10 ^ 8 + t.day * 10 ^ 6 +
    t.hour * 10 ^ 4 + t.minute * 10 ^ 2 + t.second)

/-- Model of Go `fs.FileInfo` as far as the source reads it: the mode bits and
the modification time. -/
structure FileInfoM where
  mode : Nat
  modTime : GoTime
  deriving DecidableEq, Repr

/-- Model of the `djherbis/times.Timespec` the source obtains via times.Get. -/
structure TimesM where
  accessTime : GoTime
  hasChangeTime : Bool
  changeTime : GoTime
  hasBirthTime : Bool
  birthTime : GoTime
  deriving DecidableEq, Repr

/-- Model of the `ProcessInfo` collaborator interface: each method's result is
a (value, error) pair of the shape the Go signature returns. -/
structure ProcInfoM (ε : Type) where
  ppid : Int × Option ε
  username : String × Option ε
  procName : String × Option ε
  cmdline : String × Option ε

/-- Model of the `ScanContext` interface as read by the valuer routines (the
failure hook is modelled separately where the resolver needs it). -/
structure SCtxM (ε : Type) where
  filePath : String
  fileInfo : Option FileInfoM
  pid : Int
  processInfo : Option (ProcInfoM ε)

/-- Ambient process-wide collaborators of the valuer routines: runtime.GOOS,
time.Now, times.Get, user.Lookup (returning the Uid), and the platform-specific
valuers whose source files are not under src/.

Modelled from the spec: the file_hidden, file_system, file_compressed,
file_encrypted and process_session_id computation routines live in
platform-specific files absent from src/, so they are carried as opaque
oracle fields (the spec describes them only as boolean/integer variables). -/
structure Ambient (ε : Type) where
  goos : String
  now : GoTime
  timesGet : FileInfoM → TimesM
  userLookup : String → Except ε String
  fileHiddenFn : SCtxM ε → VarRes ε
  fileSystemFn : SCtxM ε → VarRes ε
  fileCompressedFn : SCtxM ε → VarRes ε
  fileEncryptedFn : SCtxM ε → VarRes ε
  processSessionIdFn : SCtxM ε → VarRes ε

/-- Go `varOsFunc`: one of three fixed literals, or the raw GOOS string. -/
def varOsFunc (amb : Ambient ε) (_ : SCtxM ε) : PVal ε :=
  if amb.goos = "windows" then some (some (.str "windows"), none)
  else if amb.goos = "linux" then some (some (.str "linux"), none)
  else if amb.goos = "darwin" then some (some (.str "darwin"), none)
  else some (some (.str amb.goos), none)

/-- Go `noopVarFunc`: always (nil, nil); used by platform-specific files. -/
def noopVarFunc (_ : SCtxM ε) : PVal ε :=
  some (none, none)

/-- Go `varOsLinuxFunc`. -/
def varOsLinuxFunc (amb : Ambient ε) (_ : SCtxM ε) : PVal ε :=
  some (some (.bool (amb.goos = "linux")), none)

/-- Go `varOsWindowsFunc`. -/
def varOsWindowsFunc (amb : Ambient ε) (_ : SCtxM ε) : PVal ε :=
  some (some (.bool (amb.goos = "windows")), none)

/-- Go `varOsDarwinFunc`. -/
def varOsDarwinFunc (amb : Ambient ε) (_ : SCtxM ε) : PVal ε :=
  some (some (.bool (amb.goos = "darwin")), none)

/-- Go `intTimeHelper`: Format with the 14-digit layout then ParseInt; the
rendering of a broken-down time is all digits, so the parse succeeds and the
helper returns the encoded integer with a nil error. -/
def intTimeHelper (t : GoTime) : VarRes ε :=
  (some (.int (encodeTime t)), none)

/-- Go `varTimeNowFunc`. -/
def varTimeNowFunc (amb : Ambient ε) (_ : SCtxM ε) : PVal ε :=
  some (intTimeHelper amb.now)

/-- Go `varFilePathFunc`: empty string when the context has no path, otherwise
the cleaned path; never an error, never a nil value. -/
def varFilePathFunc (sCtx : SCtxM ε) : PVal ε :=
  if sCtx.filePath = "" then some (some (.str ""), none)
  else some (some (.str (clean sCtx.filePath)), none)

/-- Go `varFileNameFunc`: the short-circuit order of
`err != nil || p == nil || p.(string) == ""` is kept: the type assertion only
runs once err and p have been checked, and a non-string value would panic
(modelled as the outer none). -/
def varFileNameFunc (sCtx : SCtxM ε) : PVal ε :=
  match varFilePathFunc sCtx with
  | none => none
  | some (p, err) =>
    if err.isSome then some (p, err)
    else
      match p with
      | none => some (p, err)
      | some v =>
        match v with
        | .str s =>
          if s = "" then some (p, err)
          else
            let base := goBase s
            if base = "." then some (some (.str ""), none)
            else some (some (.str base), none)
        | _ => none

/-- Go `varFileExtensionFunc`: note that `path := p.(string)` runs BEFORE the
`err != nil || p == nil || path == ""` check, so a nil or non-string value
would panic (modelled as the outer none), and that the dotfile special case
tests the whole cleaned path, not its base name. -/
def varFileExtensionFunc (sCtx : SCtxM ε) : PVal ε :=
  match varFilePathFunc sCtx with
  | none => none
  | some (p, err) =>
    match p with
    | none => none
    | some (.str path) =>
      if err.isSome ∨ path = "" then some (p, err)
      else if startsWithDot path ∧ countDots path = 1 then some (some (.str ""), none)
      else some (some (.str (trimLeadingDot (goExt path))), none)
    | some _ => none

/-- Go `varFileReadonlyFunc`: (nil, nil) without file info, otherwise whether
no write permission bit is set in Perm() = mode & 0777. -/
def varFileReadonlyFunc (sCtx : SCtxM ε) : PVal ε :=
  match sCtx.fileInfo with
  | none => some (none, none)
  | some info => some (some (.bool (info.mode &&& 0o777 &&& 0o222 = 0)), none)

/-- Go `varFileModifiedTimeFunc`. -/
def varFileModifiedTimeFunc (sCtx : SCtxM ε) : PVal ε :=
  match sCtx.fileInfo with
  | none => some (none, none)
  | some info => some (intTimeHelper info.modTime)

/-- Go `varFileAccessedTimeFunc`. -/
def varFileAccessedTimeFunc (amb : Ambient ε) (sCtx : SCtxM ε) : PVal ε :=
  match sCtx.fileInfo with
  | none => some (none, none)
  | some info => some (intTimeHelper (amb.timesGet info).accessTime)

/-- Go `varFileChangedTimeFunc`: (nil, nil) when the platform cannot supply a
change time. -/
def varFileChangedTimeFunc (amb : Ambient ε) (sCtx : SCtxM ε) : PVal ε :=
  match sCtx.fileInfo with
  | none => some (none, none)
  | some info =>
    let ts := amb.timesGet info
    if ts.hasChangeTime then some (intTimeHelper ts.changeTime)
    else some (none, none)

/-- Go `varFileBirthTimeFunc`. -/
def varFileBirthTimeFunc (amb : Ambient ε) (sCtx : SCtxM ε) : PVal ε :=
  match sCtx.fileInfo with
  | none => some (none, none)
  | some info =>
    let ts := amb.timesGet info
    if ts.hasBirthTime then some (intTimeHelper ts.birthTime)
    else some (none, none)

/-- Go `varProcessIdFunc`: always int64(sCtx.Pid()) with a nil error — it does
NOT consult ProcessInfo. -/
def varProcessIdFunc (sCtx : SCtxM ε) : PVal ε :=
  some (some (.int sCtx.pid), none)

/-- Go `varProcessParentIdFunc`: (nil, nil) without the collaborator; on a
Ppid error the value returned is an explicit nil. -/
def varProcessParentIdFunc (sCtx : SCtxM ε) : PVal ε :=
  match sCtx.processInfo with
  | none => some (none, none)
  | some proc =>
    match proc.ppid with
    | (_, some e) => some (none, some e)
    | (ppid, none) => some (some (.int ppid), none)

/-- Go `varProcessUserNameFunc`: (nil, nil) without the collaborator;
otherwise the Username() pair is passed through, the string being wrapped into
a (necessarily non-nil) interface value. -/
def varProcessUserNameFunc (sCtx : SCtxM ε) : PVal ε :=
  match sCtx.processInfo with
  | none => some (none, none)
  | some proc => some (some (.str proc.username.1), proc.username.2)

/-- Go `varProcessUserSidFunc`: derived from the user-name valuer; a checked
type assertion makes a non-string or nil name yield (nil, nil). -/
def varProcessUserSidFunc (amb : Ambient ε) (sCtx : SCtxM ε) : PVal ε :=
  match varProcessUserNameFunc sCtx with
  | none => none
  | some (uname, err) =>
    if err.isSome then some (none, err)
    else
      match uname with
      | some (.str name) =>
        if name = "" then some (none, none)
        else
          match amb.userLookup name with
          | .error e => some (none, some e)
          | .ok uid => some (some (.str uid), none)
      | _ => some (none, none)

/-- Go `varProcessNameFunc`. -/
def varProcessNameFunc (sCtx : SCtxM ε) : PVal ε :=
  match sCtx.processInfo with
  | none => some (none, none)
  | some proc => some (some (.str proc.procName.1), proc.procName.2)

/-- Go `varProcessCommandLineFunc`. -/
def varProcessCommandLineFunc (sCtx : SCtxM ε) : PVal ε :=
  match sCtx.processInfo with
  | none => some (none, none)
  | some proc => some (some (.str proc.cmdline.1), proc.cmdline.2)

/-- Go `Valuers` registration table: the Valuer per identifier ordinal; unset
slots (the 0 sentinel and out-of-range ordinals) are nil interfaces, modelled
as none. Slot 24 (process_path) registers varFilePathFunc itself, per the
source comment "FilePath holds the process's path as well." -/
def Valuers (amb : Ambient ε) : VariableType → Option (SCtxM ε → PVal ε)
  | ⟨1⟩ => some (varOsFunc amb)
  | ⟨2⟩ => some (varOsLinuxFunc amb)
  | ⟨3⟩ => some (varOsWindowsFunc amb)
  | ⟨4⟩ => some (varOsDarwinFunc amb)
  | ⟨5⟩ => some (varTimeNowFunc amb)
  | ⟨6⟩ => some varFilePathFunc
  | ⟨7⟩ => some varFileNameFunc
  | ⟨8⟩ => some varFileExtensionFunc
  | ⟨9⟩ => some varFileReadonlyFunc
  | ⟨10⟩ => some (fun sCtx => some (amb.fileHiddenFn sCtx))
  | ⟨11⟩ => some (fun sCtx => some (amb.fileSystemFn sCtx))
  | ⟨12⟩ => some (fun sCtx => some (amb.fileCompressedFn sCtx))
  | ⟨13⟩ => some (fun sCtx => some (amb.fileEncryptedFn sCtx))
  | ⟨14⟩ => some varFileModifiedTimeFunc
  | ⟨15⟩ => some (varFileAccessedTimeFunc amb)
  | ⟨16⟩ => some (varFileChangedTimeFunc amb)
  | ⟨17⟩ => some (varFileBirthTimeFunc amb)
  | ⟨18⟩ => some varProcessIdFunc
  | ⟨19⟩ => some varProcessParentIdFunc
  | ⟨20⟩ => some varProcessUserNameFunc
  | ⟨21⟩ => some (varProcessUserSidFunc amb)
  | ⟨22⟩ => some (fun sCtx => some (amb.processSessionIdFn sCtx))
  | ⟨23⟩ => some varProcessNameFunc
  | ⟨24⟩ => some varFilePathFunc
  | ⟨25⟩ => some varProcessCommandLineFunc
  | _ => none

/-- An observable call made by the resolver on its collaborators: a
DefineVariable call on the acceptor, or a HandleValueError call on the scan
context's failure hook. -/
inductive Event (ε : Type) where
  | defineVar : String → Value → Event ε
  | hookCall : VariableType → ε → Event ε
  deriving DecidableEq

/-- The error produced by Go `defineDefaultValue`: either the defensive
"unknown variable" condition, or the acceptor's own definition error. -/
inductive DefErr (ε : Type) where
  | unknownVariable : VariableType → DefErr ε
  | definer : ε → DefErr ε
  deriving DecidableEq

/-- The error returned by Go `DefineScannerVariables`, tagged by which return
statement produced it: the fmt.Errorf wrap of a default-define failure around
the original computation error; a default-define failure alone; the failure
hook's error; or the scanner's rejection of a computed value. -/
inductive ScanError (ε : Type) where
  | wrapped : ε → DefErr ε → ScanError ε
  | fromDefault : DefErr ε → ScanError ε
  | fromHook : ε → ScanError ε
  | fromDefine : ε → ScanError ε
  deriving DecidableEq

/-- The type-appropriate default zero value Go `defineDefaultValue` picks from
the metadata (checked in the source's order: string, integer, boolean, float);
none when no recognized value-type bit is set. -/
def defaultValue (vid : VariableType) : Option Value :=
  let meta := vid.Meta
  if meta &&& MetaString != 0 then some (.str "")
  else if meta &&& MetaInt != 0 then some (.int 0)
  else if meta &&& MetaBool != 0 then some (.bool false)
  else if meta &&& MetaFloat != 0 then some (.float 0)
  else none

/-- Go `defineDefaultValue`: picks the default zero value and defines it into
the acceptor under the identifier's canonical name; returns the trace of
DefineVariable calls made and the error result. The acceptor is modelled by
its response function `dv`. -/
def defineDefaultValue (dv : String → Value → Option ε) (vid : VariableType) :
    List (Event ε) × Option (DefErr ε) :=
  match defaultValue vid with
  | none => ([], some (.unknownVariable vid))
  | some defVal =>
    ([.defineVar vid.String defVal], (dv vid.String defVal).map .definer)

/-- Go `(Variables).DefineCompilerVariables`: defines the default zero value of
every selected identifier, in selector order, stopping at the first error. -/
def DefineCompilerVariables (dv : String → Value → Option ε) :
    List VariableType → List (Event ε) × Option (DefErr ε)
  | [] => ([], none)
  | vid :: rest =>
    match defineDefaultValue dv vid with
    | (evs, some e) => (evs, some e)
    | (evs, none) =>
      let (evs2, r2) := DefineCompilerVariables dv rest
      (evs ++ evs2, r2)

/-- Go `(Variables).DefineScannerVariables`: the loop body over the selector.
`compute vid` models `Valuers[vid].Value(sCtx)` for the scan context at hand,
`hook` models `sCtx.HandleValueError` (the scanner argument it receives is the
same acceptor `dv` models), and `dv` models `scanner.DefineVariable`. Returns
the trace of collaborator calls and the error result. -/
def DefineScannerVariables (compute : VariableType → Option Value × Option ε)
    (hook : VariableType → ε → Option ε) (dv : String → Value → Option ε) :
    List VariableType → List (Event ε) × Option (ScanError ε)
  | [] => ([], none)
  | vid :: rest =>
    let (value, err) := compute vid
    if err.isSome || value.isNone then
      match defineDefaultValue dv vid with
      | (evs, some e) =>
        (evs, some (match err with
          | some e0 => .wrapped e0 e
          | none => .fromDefault e))
      | (evs, none) =>
        match err with
        | some e0 =>
          match hook vid e0 with
          | some he => (evs ++ [.hookCall vid e0], some (.fromHook he))
          | none =>
            let (evs2, r2) := DefineScannerVariables compute hook dv rest
            (evs ++ [.hookCall vid e0] ++ evs2, r2)
        | none =>
          let (evs2, r2) := DefineScannerVariables compute hook dv rest
          (evs ++ evs2, r2)
    else
      match value with
      | some v =>
        match dv vid.String v with
        | some e => ([.defineVar vid.String v], some (.fromDefine e))
        | none =>
          let (evs2, r2) := DefineScannerVariables compute hook dv rest
          (.defineVar vid.String v :: evs2, r2)
      | none => ([], none)

/-- Go `(Variables).Variables`: an independent copy of the selector list (the
modelled list is a value already, so the copy is the list itself). -/
def VariablesSnapshot (vr : Variables) : List VariableType :=
  vr.list

/-- Go `(Variables).Copy`: a deep copy for another scanner thread. -/
def VariablesCopy (vr : Variables) : Variables :=
  ⟨VariablesSnapshot vr⟩

/-- Go `ScanTarget` constants. -/
def ScanFileTarget : Nat := 0

def ScanProcessTarget : Nat := 1

/-- Go `RuleNamespace`. -/
structure RuleNamespace where
  Rule : String
  Namespace : String

/-- Accumulated state of a `variables.Parser` instance across ParseFromReader
calls.

Modelled from the spec: the rule-source parser collaborator's source file is
not under src/; per the spec it "produces the list of variable identifiers
textually referenced and whether an include directive was present", consumed
once per rule source, so each parse call appends one source's referenced
identifiers and include directives to the instance's accumulated state. -/
structure ParserState where
  vars : List VariableType
  includes : List String

/-- Oracles for the orchestrator's external collaborators: the yara
compiler/engine, the filesystem, and the per-source behaviour of the
rule-source parser.

The `parse` and `parseFile` fields are modelled from the spec (the parser's
source file is not under src/): for a rule text, respectively the path of a
rule file, they give the ParseFromReader error, the referenced identifiers,
and the include directives that one source contributes. -/
structure CompileEnv (ε : Type) where
  newCompilerErr : Option ε
  parse : String → Option ε × List VariableType × List String
  defineVariable : String → Value → Option ε
  addString : String → String → Option ε
  getRules : Except ε Nat
  openFile : String → Option ε
  statRegular : String → Except ε Bool
  parseFile : String → Option ε × List VariableType × List String
  addFile : String → String → Option ε
  openDir : String → Option ε
  readDirNames : String → Except ε (List String)
  statPath : String → Except ε (Bool × Bool)

/-- Go `Compiled`: the compiled rule set (an opaque handle) and its variable
selector. The scanner field is not modelled (no claim concerns it). -/
structure Compiled where
  varsList : List VariableType
  rules : Option Nat
  deriving DecidableEq, Repr

/-- The error returned by a compile operation, tagged by the return statement
that produced it. Compiler diagnostic aggregation (compilerError) only
decorates the message and is not modelled. -/
inductive CompileErr (ε : Type) where
  | alreadyCompiled : CompileErr ε
  | yaraCompiler : ε → CompileErr ε
  | parserFailed : ε → CompileErr ε
  | invalidTarget : Nat → CompileErr ε
  | defineVarErr : DefErr ε → CompileErr ε
  | addRuleErr : ε → CompileErr ε
  | getRulesErr : ε → CompileErr ε
  | osErr : ε → CompileErr ε
  | notDirOrRegular : String → CompileErr ε
  | noYaraFiles : CompileErr ε
  deriving DecidableEq

/-- Go `(Compiled).initVariables`: dispatches on the scan target, rejecting an
unknown one. -/
def initVariables (c : Compiled) (target : Nat) (vars : List VariableType) :
    Compiled × Option (CompileErr ε) :=
  if target = ScanProcessTarget then ({c with varsList := setVariables vars MetaProcess}, none)
  else if target = ScanFileTarget then ({c with varsList := setVariables vars MetaFile}, none)
  else (c, some (.invalidTarget target))

/-- The parse loop of Go `CompileStrings`: one ParseFromReader call per rule,
setting fallbackAllVars whenever the parser's accumulated include list is
non-empty after a source. -/
def parseRulesLoop (env : CompileEnv ε) :
    List RuleNamespace → ParserState → Bool → Except ε (ParserState × Bool)
  | [], ps, fb => .ok (ps, fb)
  | rn :: rest, ps, fb =>
    match env.parse rn.Rule with
    | (some e, _, _) => .error e
    | (none, refs, incs) =>
      let ps2 : ParserState := ⟨ps.vars ++ refs, ps.includes ++ incs⟩
      let fb2 := fb || !ps2.includes.isEmpty
      parseRulesLoop env rest ps2 fb2

/-- The candidate list handed to selector construction: the parser's
accumulated referenced identifiers, replaced by the whole of variables.List()
when any source had an include directive. -/
def candidateVars (fallbackAllVars : Bool) (parserVars : List VariableType) :
    List VariableType :=
  if fallbackAllVars then goList else parserVars

/-- The AddString loop of Go `CompileStrings`. -/
def addStringsLoop (env : CompileEnv ε) : List RuleNamespace → Option ε
  | [] => none
  | rn :: rest =>
    match env.addString rn.Rule rn.Namespace with
    | some e => some e
    | none => addStringsLoop env rest

/-- Go `(Compiled).CompileStrings`. -/
def CompileStrings (env : CompileEnv ε) (c : Compiled) (target : Nat)
    (ruleNs : List RuleNamespace) : Compiled × Option (CompileErr ε) :=
  if c.rules.isSome then (c, some .alreadyCompiled)
  else
    match env.newCompilerErr with
    | some e => (c, some (.yaraCompiler e))
    | none =>
      match parseRulesLoop env ruleNs ⟨[], []⟩ false with
      | .error e => (c, some (.parserFailed e))
      | .ok (ps, fallbackAllVars) =>
        let vars := candidateVars fallbackAllVars ps.vars
        match initVariables c target vars with
        | (c1, some e) => (c1, some e)
        | (c1, none) =>
          match (DefineCompilerVariables env.defineVariable c1.varsList).2 with
          | some e => (c1, some (.defineVarErr e))
          | none =>
            match addStringsLoop env ruleNs with
            | some e => (c1, some (.addRuleErr e))
            | none =>
              match env.getRules with
              | .error e => (c1, some (.getRulesErr e))
              | .ok r => ({c1 with rules := some r}, none)

/-- Go `(Compiled).CompileString`: delegates to CompileStrings with a single
rule/namespace pair. -/
def CompileString (env : CompileEnv ε) (c : Compiled) (target : Nat)
    (rule namespc : String) : Compiled × Option (CompileErr ε) :=
  CompileStrings env c target [⟨rule, namespc⟩]

/-- The open/stat/parse loop of Go `CompileFiles`: non-regular files are
skipped, regular ones are collected (in order) and parsed; open and stat
errors are returned raw, parse errors wrapped. -/
def openParseLoop (env : CompileEnv ε) :
    List String → List String → ParserState → Bool →
    Except (CompileErr ε) (List String × ParserState × Bool)
  | [], files, ps, fb => .ok (files, ps, fb)
  | path :: rest, files, ps, fb =>
    match env.openFile path with
    | some e => .error (.osErr e)
    | none =>
      match env.statRegular path with
      | .error e => .error (.osErr e)
      | .ok isReg =>
        if !isReg then openParseLoop env rest files ps fb
        else
          match env.parseFile path with
          | (some e, _, _) => .error (.parserFailed e)
          | (none, refs, incs) =>
            let ps2 : ParserState := ⟨ps.vars ++ refs, ps.includes ++ incs⟩
            let fb2 := fb || !ps2.includes.isEmpty
            openParseLoop env rest (files ++ [path]) ps2 fb2

/-- The AddFile loop of the Go free function `compileFiles`: the namespace is
the file name's base when filename namespacing is requested, else empty. -/
def addFilesLoop (env : CompileEnv ε) (filenameNS : Bool) : List String → Option ε
  | [] => none
  | path :: rest =>
    match env.addFile path (if filenameNS then goBase path else "") with
    | some e => some e
    | none => addFilesLoop env filenameNS rest

/-- Go `(Compiled).CompileFiles` (with the free function `compileFiles` it
calls folded in as the AddFile loop followed by GetRules). -/
def CompileFiles (env : CompileEnv ε) (c : Compiled) (target : Nat)
    (filenameNS : Bool) (paths : List String) : Compiled × Option (CompileErr ε) :=
  if c.rules.isSome then (c, some .alreadyCompiled)
  else
    match env.newCompilerErr with
    | some e => (c, some (.yaraCompiler e))
    | none =>
      match openParseLoop env paths [] ⟨[], []⟩ false with
      | .error ce => (c, some ce)
      | .ok (files, ps, fallbackAllVars) =>
        let vars := candidateVars fallbackAllVars ps.vars
        match initVariables c target vars with
        | (c1, some e) => (c1, some e)
        | (c1, none) =>
          match (DefineCompilerVariables env.defineVariable c1.varsList).2 with
          | some e => (c1, some (.defineVarErr e))
          | none =>
            match addFilesLoop env filenameNS files with
            | some e => (c1, some (.addRuleErr e))
            | none =>
              match env.getRules with
              | .error e => (c1, some (.getRulesErr e))
              | .ok r => ({c1 with rules := some r}, none)

/-- ASCII restriction of Go `strings.EqualFold`, sufficient for the ".yar" and
".yara" comparisons the source makes. -/
def asciiToLower (c : Char) : Char :=
  if 'A' ≤ c ∧ c ≤ 'Z' then Char.ofNat (c.toNat + 32) else c

def asciiEqualFold (a b : String) : Bool :=
  a.toList.map asciiToLower = b.toList.map asciiToLower

/-- Go `path/filepath.Join` for two elements (unix separators): empty elements
before the first non-empty one are skipped, the rest joined with "/" and
cleaned; all-empty input gives "". -/
def goJoin (a b : String) : String :=
  if a = "" ∧ b = "" then ""
  else if a = "" then clean b
  else clean (a ++ "/" ++ b)

/-- Go `(Compiled).CompileDir`: reads the directory, keeps names whose
extension case-insensitively equals ".yar" or ".yara", fails when none remain,
and otherwise compiles the joined paths as files. -/
def CompileDir (env : CompileEnv ε) (c : Compiled) (target : Nat)
    (filenameNS : Bool) (dir : String) : Compiled × Option (CompileErr ε) :=
  if c.rules.isSome then (c, some .alreadyCompiled)
  else
    match env.openDir dir with
    | some e => (c, some (.osErr e))
    | none =>
      match env.readDirNames dir with
      | .error e => (c, some (.osErr e))
      | .ok names =>
        let paths := (names.filter (fun name =>
          asciiEqualFold (goExt name) ".yar" || asciiEqualFold (goExt name) ".yara")).map
          (fun name => goJoin dir name)
        if paths.isEmpty then (c, some .noYaraFiles)
        else CompileFiles env c target filenameNS paths

/-- Go `(Compiled).CompileFileOrDir`: stats the path and dispatches to
CompileDir or CompileFiles, rejecting anything else. -/
def CompileFileOrDir (env : CompileEnv ε) (c : Compiled) (target : Nat)
    (filenameNS : Bool) (path : String) : Compiled × Option (CompileErr ε) :=
  if c.rules.isSome then (c, some .alreadyCompiled)
  else
    match env.statPath path with
    | .error e => (c, some (.osErr e))
    | .ok (isDir, isReg) =>
      if isDir then CompileDir env c target filenameNS path
      else if isReg then CompileFiles env c target filenameNS [path]
      else (c, some (.notDirOrRegular path))

theorem clean_ne_empty (s : String) : clean s ≠ "" := by
  unfold clean
  split
  · intro h
    exact absurd (congrArg String.data h) (by simp)
  · split
    · intro h
      exact absurd (congrArg String.data h) (by simp)
    · intro h
      have hd := congrArg String.data h
      simp only [String.data] at hd
      simp_all

/-- C9: the Valuers registration for process_path is the very routine the
file_path slot registers (varFilePathFunc), so the two variables compute
equal values on every scan context: the cleaned file path, or the empty
string when the context supplies no path. -/
theorem processPath_registers_filePath_valuer (ε : Type) (amb : Ambient ε) :
    Valuers amb VarProcessPath = some varFilePathFunc ∧
    Valuers amb VarFilePath = some varFilePathFunc ∧
    ∀ sCtx : SCtxM ε, varFilePathFunc sCtx =
      some (some (.str (if sCtx.filePath = "" then "" else clean sCtx.filePath)), none) := by
  refine ⟨rfl, rfl, fun sCtx => ?_⟩
  unfold varFilePathFunc
  split <;> simp_all

/-- C10: on every scan context the file-path routine returns a non-nil value
of string type and a nil error; consequently the string type assertions and
the nil checks inside the file-name and file-extension routines are safe (the
modelled panic branch — the outer none — is never taken), and both routines
also return a string value with a nil error. -/
theorem filePath_total_and_assertions_safe (ε : Type) (sCtx : SCtxM ε) :
    (∃ s, varFilePathFunc sCtx = some (some (.str s), none)) ∧
    (∃ s, varFileNameFunc sCtx = some (some (.str s), none)) ∧
    (∃ s, varFileExtensionFunc sCtx = some (some (.str s), none)) := by
  by_cases h : sCtx.filePath = ""
  · refine ⟨⟨"", by simp [varFilePathFunc, h]⟩, ⟨"", ?_⟩, ⟨"", ?_⟩⟩
    · simp [varFileNameFunc, varFilePathFunc, h]
    · simp [varFileExtensionFunc, varFilePathFunc, h]
  · refine ⟨⟨clean sCtx.filePath, by simp [varFilePathFunc, h]⟩, ?_, ?_⟩
    · by_cases h2 : clean sCtx.filePath = ""
      · exact ⟨"", by simp [varFileNameFunc, varFilePathFunc, h, h2]⟩
      · by_cases h3 : goBase (clean sCtx.filePath) = "."
        · exact ⟨"", by simp [varFileNameFunc, varFilePathFunc, h, h2, h3]⟩
        · exact ⟨goBase (clean sCtx.filePath),
            by simp [varFileNameFunc, varFilePathFunc, h, h2, h3]⟩
    · by_cases h2 : clean sCtx.filePath = ""
      · exact ⟨clean sCtx.filePath,
          by simp [varFileExtensionFunc, varFilePathFunc, h, h2]⟩
      · by_cases h3 : startsWithDot (clean sCtx.filePath) ∧
          countDots (clean sCtx.filePath) = 1
        · exact ⟨"", by simp [varFileExtensionFunc, varFilePathFunc, h, h2, h3]⟩
        · exact ⟨trimLeadingDot (goExt (clean sCtx.filePath)),
            by simp [varFileExtensionFunc, varFilePathFunc, h, h2, h3]⟩

/-- C4 counterexample: for the scan path "a/.gitignore" the path's base name
".gitignore" starts with a dot and contains exactly one dot in total, yet the
extension routine returns "gitignore" rather than the empty string, because
the source applies the dotfile test to the whole cleaned path (which starts
with 'a'), not to the base name. -/
theorem varFileExtension_hidden_file_in_dir :
    varFileExtensionFunc (ε := Unit) ⟨"a/.gitignore", none, 0, none⟩ =
      some (some (.str "gitignore"), none) ∧
    goBase (clean "a/.gitignore") = ".gitignore" ∧
    startsWithDot (goBase (clean "a/.gitignore")) = true ∧
    countDots (goBase (clean "a/.gitignore")) = 1 := by decide

/-- C4 amended: the dotfile special case applies when the CLEANED PATH (not
the base name) starts with a dot and contains exactly one dot in total, in
which case the extension is the empty string; otherwise, for a non-empty
path, the routine returns the cleaned path's extension without its leading
dot; in particular archive.tar.gz gives gz, .gitignore gives the empty
string, and README gives the empty string. -/
theorem varFileExtension_amended (ε : Type) (sCtx : SCtxM ε)
    (h : sCtx.filePath ≠ "") :
    varFileExtensionFunc sCtx =
      (if startsWithDot (clean sCtx.filePath) ∧ countDots (clean sCtx.filePath) = 1
       then some (some (.str ""), none)
       else some (some (.str (trimLeadingDot (goExt (clean sCtx.filePath)))), none)) ∧
    varFileExtensionFunc (ε := ε) ⟨"archive.tar.gz", none, 0, none⟩ =
      some (some (.str "gz"), none) ∧
    varFileExtensionFunc (ε := ε) ⟨".gitignore", none, 0, none⟩ =
      some (some (.str ""), none) ∧
    varFileExtensionFunc (ε := ε) ⟨"README", none, 0, none⟩ =
      some (some (.str ""), none) := by
  refine ⟨?_, by simp [varFileExtensionFunc, varFilePathFunc]; rfl,
    by simp [varFileExtensionFunc, varFilePathFunc]; rfl,
    by simp [varFileExtensionFunc, varFilePathFunc]; rfl⟩
  by_cases h3 : startsWithDot (clean sCtx.filePath) ∧ countDots (clean sCtx.filePath) = 1
  · simp [varFileExtensionFunc, varFilePathFunc, h, clean_ne_empty sCtx.filePath, h3]
  · simp [varFileExtensionFunc, varFilePathFunc, h, clean_ne_empty sCtx.filePath, h3]

/-- C4 amended witness: the amended characterization applied to the
counterexample path "a/.gitignore". -/
theorem varFileExtension_amended_witness :
    varFileExtensionFunc (ε := Unit) ⟨"a/.gitignore", none, 0, none⟩ =
      (if startsWithDot (clean "a/.gitignore") ∧ countDots (clean "a/.gitignore") = 1
       then some (some (.str ""), none)
       else some (some (.str (trimLeadingDot (goExt (clean "a/.gitignore")))), none)) :=
  (varFileExtension_amended Unit ⟨"a/.gitignore", none, 0, none⟩ (by decide)).1

/-- C6 counterexample: with no process-introspection collaborator
(ProcessInfo nil) and pid 1234, the process-id routine returns
(int64 1234, nil) — it never returns (nil, nil). -/
theorem varProcessId_not_nil_without_collaborator :
    varProcessIdFunc (ε := Unit) ⟨"", none, 1234, none⟩ =
      some (some (.int 1234), none) ∧
    varProcessIdFunc (ε := Unit) ⟨"", none, 1234, none⟩ ≠ some (none, none) := by
  decide

/-- C6 amended: when the scan context supplies no process-introspection
collaborator, the parent-pid, user-name, process-name and command-line
routines return (nil, nil); the pid routine instead always returns
int64(Pid()) with a nil error, and the process-path slot is the file-path
routine itself (returning the cleaned path or the empty string). -/
theorem processVars_without_collaborator (ε : Type) (sCtx : SCtxM ε)
    (h : sCtx.processInfo = none) :
    varProcessParentIdFunc sCtx = some (none, none) ∧
    varProcessUserNameFunc sCtx = some (none, none) ∧
    varProcessNameFunc sCtx = some (none, none) ∧
    varProcessCommandLineFunc sCtx = some (none, none) ∧
    varProcessIdFunc sCtx = some (some (.int sCtx.pid), none) ∧
    ∀ amb : Ambient ε, Valuers amb VarProcessPath = some varFilePathFunc := by
  refine ⟨?_, ?_, ?_, ?_, rfl, fun amb => rfl⟩ <;>
    simp [varProcessParentIdFunc, varProcessUserNameFunc, varProcessNameFunc,
      varProcessCommandLineFunc, h]

/-- C6 amended witness: the amended statement applied to a concrete context
with no collaborator. -/
theorem processVars_without_collaborator_witness :
    varProcessParentIdFunc (ε := Unit) ⟨"", none, 5, none⟩ = some (none, none) :=
  (processVars_without_collaborator Unit ⟨"", none, 5, none⟩ rfl).1

/-- C2: the scanner-variable resolution pass, characterized case by case on
the head identifier: a computation error or nil value triggers the default
fallback (whose trace contains no hook call); a failing default definition is
returned immediately, wrapped with the original computation error when there
was one; the failure hook runs exactly once — after a successful default
definition, only when the computation erred — and its error stops resolution;
a (nil, nil) computation substitutes the default without any hook call; a
successful non-nil value is defined under the canonical name, a failure there
being returned immediately. -/
theorem DefineScannerVariables_resolution (ε : Type)
    (compute : VariableType → Option Value × Option ε)
    (hook : VariableType → ε → Option ε) (dv : String → Value → Option ε)
    (vid : VariableType) (rest : List VariableType) :
    (DefineScannerVariables compute hook dv ([] : List VariableType) = ([], none)) ∧
    (∀ w e0, Event.hookCall w e0 ∉ (defineDefaultValue dv vid).1) ∧
    (∀ v? e evs de, compute vid = (v?, some e) →
      defineDefaultValue dv vid = (evs, some de) →
      DefineScannerVariables compute hook dv (vid :: rest) =
        (evs, some (.wrapped e de))) ∧
    (∀ evs de, compute vid = (none, none) →
      defineDefaultValue dv vid = (evs, some de) →
      DefineScannerVariables compute hook dv (vid :: rest) =
        (evs, some (.fromDefault de))) ∧
    (∀ v? e evs he, compute vid = (v?, some e) →
      defineDefaultValue dv vid = (evs, none) → hook vid e = some he →
      DefineScannerVariables compute hook dv (vid :: rest) =
        (evs ++ [.hookCall vid e], some (.fromHook he))) ∧
    (∀ v? e evs, compute vid = (v?, some e) →
      defineDefaultValue dv vid = (evs, none) → hook vid e = none →
      DefineScannerVariables compute hook dv (vid :: rest) =
        (evs ++ [.hookCall vid e] ++ (DefineScannerVariables compute hook dv rest).1,
         (DefineScannerVariables compute hook dv rest).2)) ∧
    (∀ evs, compute vid = (none, none) → defineDefaultValue dv vid = (evs, none) →
      DefineScannerVariables compute hook dv (vid :: rest) =
        (evs ++ (DefineScannerVariables compute hook dv rest).1,
         (DefineScannerVariables compute hook dv rest).2)) ∧
    (∀ v, compute vid = (some v, none) → dv vid.String v = none →
      DefineScannerVariables compute hook dv (vid :: rest) =
        (.defineVar vid.String v :: (DefineScannerVariables compute hook dv rest).1,
         (DefineScannerVariables compute hook dv rest).2)) ∧
    (∀ v de, compute vid = (some v, none) → dv vid.String v = some de →
      DefineScannerVariables compute hook dv (vid :: rest) =
        ([.defineVar vid.String v], some (.fromDefine de))) := by
  refine ⟨rfl, ?_, ?_, ?_, ?_, ?_, ?_, ?_, ?_⟩
  · intro w e0
    cases hdv : defaultValue vid <;> simp [defineDefaultValue, hdv]
  · intro v? e evs de hc hd
    cases v? <;> simp [DefineScannerVariables, hc, hd]
  · intro evs de hc hd
    simp [DefineScannerVariables, hc, hd]
  · intro v? e evs he hc hd hh
    cases v? <;> simp [DefineScannerVariables, hc, hd, hh]
  · intro v? e evs hc hd hh
    cases v? <;> simp [DefineScannerVariables, hc, hd, hh]
  · intro evs hc hd
    simp [DefineScannerVariables, hc, hd]
  · intro v hc hdv
    simp [DefineScannerVariables, hc, hdv]
  · intro v de hc hdv
    simp [DefineScannerVariables, hc, hdv]

/-- C2 witness: the characterization applied to a one-identifier selector
whose computation succeeds with int 7 and whose scanner accepts it. -/
theorem DefineScannerVariables_resolution_witness :
    DefineScannerVariables (ε := Unit) (fun _ => (some (.int 7), none))
      (fun _ _ => none) (fun _ _ => none) [VarProcessId] =
      ([.defineVar "process_id" (.int 7)], none) := by
  have h := (DefineScannerVariables_resolution Unit (fun _ => (some (.int 7), none))
    (fun _ _ => none) (fun _ _ => none) VarProcessId []).2.2.2.2.2.2.2.1
    (.int 7) rfl rfl
  rw [h]
  decide

/-- The acceptor `dv` accepts identifier u's default definition. -/
abbrev defOk (dv : String → Value → Option ε) (u : VariableType) : Prop :=
  (defineDefaultValue dv u).2 = none

/-- The DefineVariable calls made by a run of successful default definitions,
in selector order. -/
def defTrace (dv : String → Value → Option ε) (l : List VariableType) : List (Event ε) :=
  (l.map (fun u => (defineDefaultValue dv u).1)).flatten

/-- C7: the compile-time default-definition pass: per identifier, the
type-appropriate zero value is picked from the metadata (empty string, 0,
false, 0.0, probed in the source's order) and an identifier with none of the
four type bits yields the "unknown variable" error without any define call;
the pass runs in selector order, returns the first definition error
immediately — later identifiers are not processed, earlier definitions are
not undone (their calls stay in the trace) — and succeeds with the full trace
otherwise. -/
theorem DefineCompilerVariables_spec (ε : Type) (dv : String → Value → Option ε) :
    (∀ v : VariableType,
      (v.Meta &&& MetaString ≠ 0 → defaultValue v = some (.str "")) ∧
      (v.Meta &&& MetaString = 0 → v.Meta &&& MetaInt ≠ 0 →
        defaultValue v = some (.int 0)) ∧
      (v.Meta &&& MetaString = 0 → v.Meta &&& MetaInt = 0 → v.Meta &&& MetaBool ≠ 0 →
        defaultValue v = some (.bool false)) ∧
      (v.Meta &&& MetaString = 0 → v.Meta &&& MetaInt = 0 → v.Meta &&& MetaBool = 0 →
        v.Meta &&& MetaFloat ≠ 0 → defaultValue v = some (.float 0)) ∧
      (v.Meta &&& MetaString = 0 → v.Meta &&& MetaInt = 0 → v.Meta &&& MetaBool = 0 →
        v.Meta &&& MetaFloat = 0 →
        defineDefaultValue dv v = ([], some (.unknownVariable v)))) ∧
    (∀ l : List VariableType, (∀ u ∈ l, defOk dv u) →
      DefineCompilerVariables dv l = (defTrace dv l, none)) ∧
    (∀ (l1 : List VariableType) (v : VariableType) (l2 : List VariableType)
      (evs : List (Event ε)) (e : DefErr ε),
      (∀ u ∈ l1, defOk dv u) → defineDefaultValue dv v = (evs, some e) →
      DefineCompilerVariables dv (l1 ++ v :: l2) = (defTrace dv l1 ++ evs, some e)) := by
  refine ⟨fun v => ⟨?_, ?_, ?_, ?_, ?_⟩, ?_, ?_⟩
  · intro hs
    simp [defaultValue, hs]
  · intro hs hi
    simp [defaultValue, hs, hi]
  · intro hs hi hb
    simp [defaultValue, hs, hi, hb]
  · intro hs hi hb hf
    simp [defaultValue, hs, hi, hb, hf]
  · intro hs hi hb hf
    simp [defineDefaultValue, defaultValue, hs, hi, hb, hf]
  · intro l
    induction l with
    | nil => intro _; simp [DefineCompilerVariables, defTrace]
    | cons u rest ih =>
      intro hall
      have hu : defOk dv u := hall u (List.mem_cons_self u rest)
      cases hdd : defineDefaultValue dv u with
      | mk evs r =>
        have hr : r = none := by
          have := hu
          rw [defOk, hdd] at this
          exact this
        subst hr
        have hrest := ih (fun w hw => hall w (List.mem_cons_of_mem u hw))
        simp [DefineCompilerVariables, hdd, defTrace, hrest]
  · intro l1 v l2 evs e hall hv
    induction l1 with
    | nil => simp [DefineCompilerVariables, hv, defTrace]
    | cons u rest ih =>
      have hu : defOk dv u := hall u (List.mem_cons_self u rest)
      cases hdd : defineDefaultValue dv u with
      | mk evsU r =>
        have hr : r = none := by
          have := hu
          rw [defOk, hdd] at this
          exact this
        subst hr
        have hrest := ih (fun w hw => hall w (List.mem_cons_of_mem u hw))
        simp [DefineCompilerVariables, hdd, defTrace, hrest]

/-- C7 witness: the success clause applied to a concrete two-identifier
selector and an accepting compiler. -/
theorem DefineCompilerVariables_spec_witness :
    DefineCompilerVariables (ε := Unit) (fun _ _ => none) [VarOs, VarFileReadonly] =
      ([.defineVar "os" (.str ""), .defineVar "file_readonly" (.bool false)], none) := by
  have h := (DefineCompilerVariables_spec Unit (fun _ _ => none)).2.1
    [VarOs, VarFileReadonly] (by decide)
  rw [h]
  rfl

/-- C8: once an orchestrator instance holds a compiled rule set, every compile
operation — from strings, a single string, files, a directory, or a
file-or-directory path — fails with the already-compiled error and returns
the instance unchanged: rule set and variable selector untouched. -/
theorem compile_on_compiled_instance_fails (ε : Type) (env : CompileEnv ε)
    (c : Compiled) (target : Nat) (ruleNs : List RuleNamespace)
    (rule namespc : String) (filenameNS : Bool) (paths : List String)
    (path dir : String) (h : c.rules.isSome = true) :
    CompileStrings env c target ruleNs = (c, some .alreadyCompiled) ∧
    CompileString env c target rule namespc = (c, some .alreadyCompiled) ∧
    CompileFiles env c target filenameNS paths = (c, some .alreadyCompiled) ∧
    CompileDir env c target filenameNS dir = (c, some .alreadyCompiled) ∧
    CompileFileOrDir env c target filenameNS path = (c, some .alreadyCompiled) := by
  refine ⟨?_, ?_, ?_, ?_, ?_⟩ <;>
    simp [CompileStrings, CompileString, CompileFiles, CompileDir, CompileFileOrDir, h]

/-- A concrete oracle environment whose engine calls all succeed and whose
parser reports, for every source, one include directive and a reference to
file_path. -/
def includeEnv : CompileEnv Unit :=
  ⟨none, fun _ => (none, [VarFilePath], ["other.yar"]), fun _ _ => none,
    fun _ _ => none, .ok 0, fun _ => none, fun _ => .ok true,
    fun _ => (none, [VarFilePath], ["other.yar"]), fun _ _ => none,
    fun _ => none, fun _ => .ok [], fun _ => .ok (false, true)⟩

/-- A concrete oracle environment like includeEnv but whose parser reports no
include directive and references to file_path and process_command_line. -/
def noIncludeEnv : CompileEnv Unit :=
  ⟨none, fun _ => (none, [VarFilePath, VarProcessCommandLine], []), fun _ _ => none,
    fun _ _ => none, .ok 0, fun _ => none, fun _ => .ok true,
    fun _ => (none, [VarFilePath, VarProcessCommandLine], []), fun _ _ => none,
    fun _ => none, fun _ => .ok [], fun _ => .ok (false, true)⟩

/-- C8 witness: a second CompileStrings on an already compiled instance. -/
theorem compile_on_compiled_instance_fails_witness :
    CompileStrings includeEnv ⟨[], some 0⟩ ScanFileTarget [] =
      ((⟨[], some 0⟩ : Compiled), some .alreadyCompiled) :=
  (compile_on_compiled_instance_fails Unit includeEnv ⟨[], some 0⟩ ScanFileTarget
    [] "" "" false [] "" "" rfl).1

/-- C5: evaluated at concrete compiles. When a source carries an include
directive, both CompileStrings and CompileFiles hand variables.List() to
selector construction as the candidate list — but, per the List() bug, that
is NOT the entire registry catalogue: the resulting process-target selector
misses process_command_line even though the catalogue-built selector contains
it. Without includes the candidates are exactly the parser's referenced
identifiers. -/
theorem include_fallback_selects_buggy_list :
    (CompileStrings includeEnv ⟨[], none⟩ ScanProcessTarget
      [⟨"rule a", ""⟩]).1.varsList =
      setVariables goList MetaProcess ∧
    (CompileFiles includeEnv ⟨[], none⟩ ScanProcessTarget false ["a.yar"]).1.varsList =
      setVariables goList MetaProcess ∧
    VarProcessCommandLine ∉ setVariables goList MetaProcess ∧
    VarProcessCommandLine ∈ setVariables catalogIdentifiers MetaProcess ∧
    (CompileStrings noIncludeEnv ⟨[], none⟩ ScanProcessTarget
      [⟨"rule a", ""⟩]).1.varsList =
      setVariables [VarFilePath, VarProcessCommandLine] MetaProcess := by decide
